import Mathlib

/-!
Traffic Lights Control System: the configuration header `config.h`

`config.h` is a list of object-like macros: five repetition counts, the delay
constants (one of them, `BLINKDEL`, derived from two others) and the eight port
masks of the two roads.  Each macro becomes a definition of the same name; the
header as a whole becomes the table `defines`, in the order of the file.
-/

namespace TrafficLight

/-! ## Repetition definitions (config.h, lines 13-17) -/

/-- Macro `BLINKREP (4)`. -/
def BLINKREP : Nat := 4
/-- Macro `GREENREP (4)`. -/
def GREENREP : Nat := 4
/-- Macro `YELLOWREP (1)`. -/
def YELLOWREP : Nat := 1
/-- Macro `REDREP (1)`. -/
def REDREP : Nat := 1
/-- Macro `BLUEREP (2)`. -/
def BLUEREP : Nat := 2

/-! ## Delay definitions (config.h, lines 23-26) -/

/-- Macro `CLOCK (460)`: time for a correct always-on appearance. -/
def CLOCK : Nat := 460
/-- Macro `DELAY (180)`: length of a step. -/
def DELAY : Nat := 180
/-- Macro `BLINKS (2)`: amount of blinks per blinking step. -/
def BLINKS : Nat := 2

/-- First value above the range of a signed `w`-bit `int`, `2^(w-1)`; the
range is `-intLimit w .. intLimit w - 1`.  The header does not fix the width
of `int`, so `w` is a parameter (16 or 32 on the usual targets). -/
def intLimit (w : Nat) : Int := 2 ^ (w - 1)

/-- Value of a signed `w`-bit `int` that holds the mathematical result `x`:
`x` reduced modulo `2^w` into the signed range (two's complement wrap). -/
def wrapInt (w : Nat) (x : Int) : Int :=
  let m := x % 2 ^ w
  if m < intLimit w then m else m - 2 ^ w

/-- Body of the macro `BLINKDEL`, `(DELAY/(BLINKS*2))`, as a function of the two
macros it mentions, in `int` arithmetic of width `w`: the product `BLINKS*2`
wraps, `/` truncates toward zero (its result stored in an `int` again), and a
zero divisor (undefined in C) gives `none`. -/
def blinkdel (w : Nat) (delay blinks : Int) : Option Int :=
  let divisor := wrapInt w (blinks * 2)
  if divisor = 0 then none else some (wrapInt w (Int.tdiv delay divisor))

/-- Macro `BLINKDEL (DELAY/(BLINKS*2))`, expanded at the values of the header. -/
def BLINKDEL : Nat := DELAY / (BLINKS * 2)

/-! ## Port definitions (config.h, lines 33-41) -/

/-- Macro `PBLUE (0xE3)`. -/
def PBLUE : Nat := 0xE3
/-- Macro `PGREEN (0xD3)`. -/
def PGREEN : Nat := 0xD3
/-- Macro `PYELLOW (0xB3)`. -/
def PYELLOW : Nat := 0xB3
/-- Macro `PRED (0x73)`. -/
def PRED : Nat := 0x73
/-- Macro `SBLUE (0xEC)`. -/
def SBLUE : Nat := 0xEC
/-- Macro `SGREEN (0xDC)`. -/
def SGREEN : Nat := 0xDC
/-- Macro `SYELLOW (0xBC)`. -/
def SYELLOW : Nat := 0xBC
/-- Macro `SRED (0x7C)`. -/
def SRED : Nat := 0x7C

/-- Every `#define` of config.h, in file order, with the value it expands to. -/
def defines : List (String × Nat) :=
  [ ("BLINKREP", BLINKREP), ("GREENREP", GREENREP), ("YELLOWREP", YELLOWREP),
    ("REDREP", REDREP), ("BLUEREP", BLUEREP),
    ("CLOCK", CLOCK), ("DELAY", DELAY), ("BLINKS", BLINKS), ("BLINKDEL", BLINKDEL),
    ("PBLUE", PBLUE), ("PGREEN", PGREEN), ("PYELLOW", PYELLOW), ("PRED", PRED),
    ("SBLUE", SBLUE), ("SGREEN", SGREEN), ("SYELLOW", SYELLOW), ("SRED", SRED) ]

/-- Value of a macro of config.h; `none` when the header has no such `#define`. -/
def macroValue (name : String) : Option Nat :=
  defines.lookup name

/-- The two roads; the header heads their sections "Primary Road Lights" and
"Secondary Road Lights". -/
inductive Road where
  | PRIMARY
  | SECONDARY
  deriving DecidableEq, Repr

/-- Colours a phase can have.  The first four are the colours that name port
macros in config.h; `BLINK` names the blinking step (`BLINKREP`, `BLINKS`,
`BLINKDEL`). -/
inductive Colour where
  | BLUE
  | GREEN
  | YELLOW
  | RED
  | BLINK
  deriving DecidableEq, Repr

/-- Letter that starts the port macros of a road (`P...` / `S...`). -/
def roadLetter : Road → String
  | Road.PRIMARY => "P"
  | Road.SECONDARY => "S"

/-- Spelling of a colour in the macro names. -/
def colourName : Colour → String
  | Colour.BLUE => "BLUE"
  | Colour.GREEN => "GREEN"
  | Colour.YELLOW => "YELLOW"
  | Colour.RED => "RED"
  | Colour.BLINK => "BLINK"

/-- Port mask of a (road, colour) pair: the value of the macro whose name is
the road letter followed by the colour, when config.h defines one. -/
def portMask (r : Road) (c : Colour) : Option Nat :=
  macroValue (roadLetter r ++ colourName c)

/-- The four colours that have port macros. -/
def lampColours : List Colour :=
  [Colour.BLUE, Colour.GREEN, Colour.YELLOW, Colour.RED]

/-- High nibble of an 8-bit mask. -/
def highNibble (m : Nat) : Nat := m / 16

/-- Low nibble of an 8-bit mask. -/
def lowNibble (m : Nat) : Nat := m % 16

/-- Positions (0..3) of the cleared bits of a nibble. -/
def clearedBits (n : Nat) : List Nat :=
  (List.range 4).filter (fun i => !n.testBit i)

/-! ## The phase sequencer

The assembly program that includes config.h is not part of the sources at hand.
The definitions of this section follow the written specification of its phase
sequencer (sections 3, 4.1, 4.2 and 6 of the specification).
-/

/-- Modelled from the spec: the configuration structure of section 6, holding
the repetition counts and the timing constants as named options. -/
structure Config where
  BLINKREP : Nat
  GREENREP : Nat
  YELLOWREP : Nat
  REDREP : Nat
  BLUEREP : Nat
  DELAY : Nat
  BLINKS : Nat
  CLOCK : Nat
  deriving DecidableEq, Repr

/-- The configuration that config.h supplies. -/
def config : Config where
  BLINKREP := BLINKREP
  GREENREP := GREENREP
  YELLOWREP := YELLOWREP
  REDREP := REDREP
  BLUEREP := BLUEREP
  DELAY := DELAY
  BLINKS := BLINKS
  CLOCK := CLOCK

/-- Modelled from the spec: a phase descriptor (sections 2 and 3): its colour,
its repetition count, the duration of one repetition step, and the colour each
road shows during the phase. -/
structure Phase where
  color : Colour
  repetitions : Nat
  duration_per_repetition : Nat
  primary : Colour
  secondary : Colour
  deriving DecidableEq, Repr

/-- Modelled from the spec: repetition count that belongs to a phase colour. -/
def Config.repetitionsOf (cfg : Config) : Colour → Nat
  | Colour.BLUE => cfg.BLUEREP
  | Colour.GREEN => cfg.GREENREP
  | Colour.YELLOW => cfg.YELLOWREP
  | Colour.RED => cfg.REDREP
  | Colour.BLINK => cfg.BLINKREP

/-- Modelled from the spec: step duration of a phase colour (section 4.2):
`DELAY` ticks for a steady phase, `BLINKDEL` ticks for each flash of the blink
phase. -/
def Config.durationOf (cfg : Config) : Colour → Nat
  | Colour.BLINK => cfg.DELAY / (cfg.BLINKS * 2)
  | _ => cfg.DELAY

/-- Modelled from the spec: one phase of the cycle, its counts taken from the
configuration. -/
def Config.phase (cfg : Config) (color primary secondary : Colour) : Phase where
  color := color
  repetitions := cfg.repetitionsOf color
  duration_per_repetition := cfg.durationOf color
  primary := primary
  secondary := secondary

/-- Modelled from the spec: the phase table builder of section 4.1, which is
not in config.h.  It fails (`none`) exactly when a repetition count is not
positive; otherwise it yields the cycle primary-green/secondary-red,
primary-yellow, primary-red/secondary-green, secondary-yellow,
blink-all-directions, blue. -/
def buildPhaseTable (cfg : Config) : Option (List Phase) :=
  if cfg.BLINKREP = 0 ∨ cfg.GREENREP = 0 ∨ cfg.YELLOWREP = 0 ∨ cfg.REDREP = 0
      ∨ cfg.BLUEREP = 0 then
    none
  else
    some
      [ cfg.phase Colour.GREEN Colour.GREEN Colour.RED,
        cfg.phase Colour.YELLOW Colour.YELLOW Colour.RED,
        cfg.phase Colour.RED Colour.RED Colour.GREEN,
        cfg.phase Colour.YELLOW Colour.RED Colour.YELLOW,
        cfg.phase Colour.BLINK Colour.BLINK Colour.BLINK,
        cfg.phase Colour.BLUE Colour.BLUE Colour.BLUE ]

/-- Modelled from the spec: the blink sub-state of section 3: whether the lamps
are in the ON flash, and how many flashes of the current repetition are over. -/
structure BlinkSubState where
  lit : Bool
  flashes : Nat
  deriving DecidableEq, Repr

/-- Modelled from the spec: the sequencer state of section 3. -/
structure SequencerState where
  current_phase_index : Nat
  repetitions_remaining : Nat
  blink_sub_state : BlinkSubState
  elapsed_ticks_in_current_step : Nat
  deriving DecidableEq, Repr

/-- Modelled from the spec: the phase at an index of the table.  An index
past the end reads as an all-blue phase of no length; the sequencer never
produces one (see `reachable_index_lt`). -/
def phaseAt (table : List Phase) (i : Nat) : Phase :=
  table.getD i ⟨Colour.BLUE, 0, 0, Colour.BLUE, Colour.BLUE⟩

/-- Modelled from the spec: state at the start of a phase: all of its
repetitions remaining, no tick elapsed, blink sub-state at its first ON flash. -/
def enterPhase (table : List Phase) (i : Nat) : SequencerState where
  current_phase_index := i
  repetitions_remaining := (phaseAt table i).repetitions
  blink_sub_state := ⟨true, 0⟩
  elapsed_ticks_in_current_step := 0

/-- Modelled from the spec: the initial state of section 4.2, index 0 of the
table. -/
def initialState (table : List Phase) : SequencerState :=
  enterPhase table 0

/-- Modelled from the spec: end of a repetition (section 4.2, case (b)):
decrement `repetitions_remaining` and, when exhausted, advance to the next
phase of the table, wrapping to index 0 after the last. -/
def endRepetition (table : List Phase) (s : SequencerState) : SequencerState :=
  if s.repetitions_remaining ≤ 1 then
    enterPhase table ((s.current_phase_index + 1) % table.length)
  else
    { s with
      repetitions_remaining := s.repetitions_remaining - 1
      blink_sub_state := ⟨true, 0⟩
      elapsed_ticks_in_current_step := 0 }

/-- Modelled from the spec: the tick handler `on_tick()` of sections 4.2 and
6.  The tick counter is incremented; when it reaches the duration of the
phase, it is reset and either (a) the blink phase toggles ON/OFF while flashes
of the repetition remain, or (b) the repetition ends. -/
def onTick (cfg : Config) (table : List Phase) (s : SequencerState) : SequencerState :=
  let p := phaseAt table s.current_phase_index
  let e := s.elapsed_ticks_in_current_step + 1
  if e < p.duration_per_repetition then
    { s with elapsed_ticks_in_current_step := e }
  else if p.color = Colour.BLINK ∧ s.blink_sub_state.flashes + 1 < cfg.BLINKS then
    { s with
      blink_sub_state := ⟨!s.blink_sub_state.lit, s.blink_sub_state.flashes + 1⟩
      elapsed_ticks_in_current_step := 0 }
  else
    endRepetition table s

/-- Modelled from the spec: the state after `n` ticks. -/
def runTicks (cfg : Config) (table : List Phase) : Nat → SequencerState → SequencerState
  | 0, s => s
  | n + 1, s => runTicks cfg table n (onTick cfg table s)

/-- Modelled from the spec: colour of a road in a sequencer state (the
`RoadState` of section 3). -/
def roadColour (table : List Phase) (s : SequencerState) : Road → Colour
  | Road.PRIMARY => (phaseAt table s.current_phase_index).primary
  | Road.SECONDARY => (phaseAt table s.current_phase_index).secondary

/-- Modelled from the spec: pair of port masks written in a state, the port
encoder applied to both roads. -/
def portWrite (table : List Phase) (s : SequencerState) : Option Nat × Option Nat :=
  (portMask Road.PRIMARY (roadColour table s Road.PRIMARY),
   portMask Road.SECONDARY (roadColour table s Road.SECONDARY))

/-- The phase table of the supplied configuration (empty had the builder
failed; `buildPhaseTable_config` shows it does not). -/
def phaseTable : List Phase :=
  (buildPhaseTable config).getD []

/-- Modelled from the spec: the sequencer state reached from the initial state
by `n` ticks, under the configuration of config.h. -/
def stateAfter (n : Nat) : SequencerState :=
  runTicks config phaseTable n (initialState phaseTable)

/-- Nibble decomposition of the two masks `p` (primary) and `s` (secondary) of
one colour, with colour nibble `hi`. -/
def nibbleSplit (hi p s : Nat) : Prop :=
  highNibble p = hi ∧ highNibble s = hi ∧ (clearedBits hi).length = 1 ∧
  lowNibble p = 0x3 ∧ lowNibble s = 0xC ∧
  p ^^^ s = 0x0F ∧ p ||| s = (p &&& 0xF0) ||| 0x0F

instance (hi p s : Nat) : Decidable (nibbleSplit hi p s) := by
  unfold nibbleSplit; infer_instance

/-! ## Helper lemmas on the sequencer -/

theorem phaseTable_eq :
    phaseTable =
      [ ⟨Colour.GREEN, 4, 180, Colour.GREEN, Colour.RED⟩,
        ⟨Colour.YELLOW, 1, 180, Colour.YELLOW, Colour.RED⟩,
        ⟨Colour.RED, 1, 180, Colour.RED, Colour.GREEN⟩,
        ⟨Colour.YELLOW, 1, 180, Colour.RED, Colour.YELLOW⟩,
        ⟨Colour.BLINK, 4, 45, Colour.BLINK, Colour.BLINK⟩,
        ⟨Colour.BLUE, 2, 180, Colour.BLUE, Colour.BLUE⟩ ] := by
  decide

theorem buildPhaseTable_config : buildPhaseTable config = some phaseTable := by
  decide

theorem enterPhase_index (table : List Phase) (i : Nat) :
    (enterPhase table i).current_phase_index = i := rfl

theorem endRepetition_index_lt (table : List Phase) (s : SequencerState)
    (h : s.current_phase_index < table.length) :
    (endRepetition table s).current_phase_index < table.length := by
  unfold endRepetition
  split
  · rw [enterPhase_index]
    exact Nat.mod_lt _ (Nat.lt_of_le_of_lt (Nat.zero_le _) h)
  · exact h

theorem onTick_index_lt (cfg : Config) (table : List Phase) (s : SequencerState)
    (h : s.current_phase_index < table.length) :
    (onTick cfg table s).current_phase_index < table.length := by
  unfold onTick
  dsimp only
  split
  · exact h
  · split
    · exact h
    · exact endRepetition_index_lt table s h

theorem runTicks_index_lt (cfg : Config) (table : List Phase) (n : Nat) :
    ∀ s : SequencerState, s.current_phase_index < table.length →
      (runTicks cfg table n s).current_phase_index < table.length := by
  induction n with
  | zero => intro s h; exact h
  | succ k ih =>
    intro s h
    exact ih (onTick cfg table s) (onTick_index_lt cfg table s h)

theorem reachable_index_lt (n : Nat) :
    (stateAfter n).current_phase_index < phaseTable.length := by
  unfold stateAfter
  apply runTicks_index_lt
  decide

theorem phaseTable_not_both_green :
    ∀ i, i < phaseTable.length →
      ¬ ((phaseAt phaseTable i).primary = Colour.GREEN ∧
         (phaseAt phaseTable i).secondary = Colour.GREEN) := by
  decide

theorem green_of_green_masks (c₁ c₂ : Colour)
    (h : (portMask Road.PRIMARY c₁, portMask Road.SECONDARY c₂) =
      (some PGREEN, some SGREEN)) :
    c₁ = Colour.GREEN ∧ c₂ = Colour.GREEN := by
  revert h
  cases c₁ <;> cases c₂ <;> decide

/-! ## Helper lemmas on `int` arithmetic -/

theorem wrapInt_of_small (w : Nat) (x : Int) (h0 : 0 ≤ x) (h : x < intLimit w) :
    wrapInt w x = x := by
  have hle : intLimit w ≤ (2 : Int) ^ w := by
    unfold intLimit
    exact pow_le_pow_right₀ (by norm_num) (Nat.sub_le w 1)
  have hmod : x % 2 ^ w = x := Int.emod_eq_of_lt h0 (lt_of_lt_of_le h hle)
  unfold wrapInt
  simp only [hmod]
  rw [if_pos h]

theorem wrapInt_double_ne_zero (w : Nat) (b : Int) (h1 : 1 ≤ b) (h : b < intLimit w) :
    wrapInt w (b * 2) ≠ 0 := by
  cases w with
  | zero =>
    have : intLimit 0 = 1 := by decide
    omega
  | succ k =>
    have hlim : intLimit (k + 1) = 2 ^ k := by simp [intLimit]
    have hpow : (2 : Int) ^ (k + 1) = 2 ^ k * 2 := pow_succ 2 k
    have hP : (0 : Int) < 2 ^ k := by positivity
    rw [hlim] at h
    have hmod : b * 2 % 2 ^ (k + 1) = b * 2 :=
      Int.emod_eq_of_lt (by omega) (by rw [hpow]; omega)
    unfold wrapInt
    simp only [hmod, hlim]
    split <;> omega

/-! ## The claims -/

/-- C1: the port masks of config.h are 0xE3, 0xD3, 0xB3, 0x73 for the primary
road's blue, green, yellow, red and 0xEC, 0xDC, 0xBC, 0x7C for the secondary
road's; the port lookup returns them, and each of the eight is an 8-bit value. -/
theorem port_mask_table :
    (PBLUE = 0xE3 ∧ PGREEN = 0xD3 ∧ PYELLOW = 0xB3 ∧ PRED = 0x73) ∧
    (SBLUE = 0xEC ∧ SGREEN = 0xDC ∧ SYELLOW = 0xBC ∧ SRED = 0x7C) ∧
    (portMask Road.PRIMARY Colour.BLUE = some 0xE3 ∧
     portMask Road.PRIMARY Colour.GREEN = some 0xD3 ∧
     portMask Road.PRIMARY Colour.YELLOW = some 0xB3 ∧
     portMask Road.PRIMARY Colour.RED = some 0x73) ∧
    (portMask Road.SECONDARY Colour.BLUE = some 0xEC ∧
     portMask Road.SECONDARY Colour.GREEN = some 0xDC ∧
     portMask Road.SECONDARY Colour.YELLOW = some 0xBC ∧
     portMask Road.SECONDARY Colour.RED = some 0x7C) ∧
    List.Forall (fun m => 0 ≤ m ∧ m ≤ 255)
      [PBLUE, PGREEN, PYELLOW, PRED, SBLUE, SGREEN, SYELLOW, SRED] := by
  decide

/-- C2: the configuration constants of config.h have the listed defaults:
BLINKREP 4, GREENREP 4, YELLOWREP 1, REDREP 1, BLUEREP 2, DELAY 180, BLINKS 2,
CLOCK 460; so has the configuration structure filled from them. -/
theorem config_defaults :
    BLINKREP = 4 ∧ GREENREP = 4 ∧ YELLOWREP = 1 ∧ REDREP = 1 ∧ BLUEREP = 2 ∧
    DELAY = 180 ∧ BLINKS = 2 ∧ CLOCK = 460 ∧
    config = ⟨4, 4, 1, 1, 2, 180, 2, 460⟩ := by
  decide

/-- C3: with BLINKREP = 4, BLINKS = 2 and DELAY = 180, the macro BLINKDEL,
DELAY / (BLINKS * 2) under truncating division, is 45, and the flash budget
BLINKREP * BLINKS is 8. -/
theorem blinkdel_value :
    BLINKREP = 4 ∧ BLINKS = 2 ∧ DELAY = 180 ∧
    blinkdel 16 180 2 = some 45 ∧ blinkdel 32 180 2 = some 45 ∧
    blinkdel 16 DELAY BLINKS = some (BLINKDEL : Int) ∧
    blinkdel 32 DELAY BLINKS = some (BLINKDEL : Int) ∧
    BLINKDEL = 45 ∧ macroValue "BLINKDEL" = some 45 ∧
    BLINKREP * BLINKS = 8 := by
  decide

/-- C4: no state the sequencer reaches from its initial state, by any number
of ticks, shows GREEN on both roads; the pair of port masks written there is
never (PGREEN, SGREEN) = (0xD3, 0xDC).  The state's phase index always lies
inside the phase table, so the colours are those of a phase of the cycle. -/
theorem never_both_green (n : Nat) :
    (stateAfter n).current_phase_index < phaseTable.length ∧
    ¬ (roadColour phaseTable (stateAfter n) Road.PRIMARY = Colour.GREEN ∧
       roadColour phaseTable (stateAfter n) Road.SECONDARY = Colour.GREEN) ∧
    portWrite phaseTable (stateAfter n) ≠ (some PGREEN, some SGREEN) ∧
    portWrite phaseTable (stateAfter n) ≠ (some 0xD3, some 0xDC) := by
  have hlt := reachable_index_lt n
  have hng : ¬ (roadColour phaseTable (stateAfter n) Road.PRIMARY = Colour.GREEN ∧
      roadColour phaseTable (stateAfter n) Road.SECONDARY = Colour.GREEN) :=
    phaseTable_not_both_green _ hlt
  have hmask : portWrite phaseTable (stateAfter n) ≠ (some PGREEN, some SGREEN) :=
    fun h => hng (green_of_green_masks _ _ h)
  exact ⟨hlt, hng, hmask, hmask⟩

/-- C5 (as stated, refuted): config.h defines no port mask for the colour
BLINK, on either road, so the lookup is not defined on every (road, colour)
pair. -/
theorem blink_has_no_port_mask :
    portMask Road.PRIMARY Colour.BLINK = none ∧
    portMask Road.SECONDARY Colour.BLINK = none ∧
    ¬ ∀ (r : Road) (c : Colour), (portMask r c).isSome = true := by
  refine ⟨by decide, by decide, fun h => ?_⟩
  exact absurd (h Road.PRIMARY Colour.BLINK) (by decide)

/-- C5 (amended): for every road, config.h defines a port mask for a colour
exactly when the colour is one of BLUE, GREEN, YELLOW, RED, that is, when it
is not BLINK; a defined mask is an 8-bit value. -/
theorem port_mask_defined_iff (r : Road) (c : Colour) :
    ((portMask r c).isSome = true ↔ c ≠ Colour.BLINK) ∧
    (c ∈ lampColours ↔ c ≠ Colour.BLINK) ∧
    Option.all (fun m => decide (m ≤ 255)) (portMask r c) = true := by
  cases r <;> cases c <;> decide

/-- C6 (as stated, refuted): the high nibble of the secondary blue mask 0xEC
is 0xE, neither 0xC nor 0x4; in fact no secondary mask has high nibble 0xC or
0x4. -/
theorem secondary_high_nibble_not_C_or_4 :
    portMask Road.SECONDARY Colour.BLUE = some SBLUE ∧
    highNibble SBLUE = 0xE ∧
    ¬ (highNibble SBLUE = 0xC ∨ highNibble SBLUE = 0x4) ∧
    List.Forall (fun m => ¬ (highNibble m = 0xC ∨ highNibble m = 0x4))
      [SBLUE, SGREEN, SYELLOW, SRED] := by
  decide

/-- C6 (amended): for every colour in {BLUE, GREEN, YELLOW, RED}, the
secondary mask keeps the high nibble of the primary mask and differs from it
in the low nibble, which is 0xC where the primary's is 0x3. -/
theorem secondary_mirrors_in_low_nibble (c : Colour) (hc : c ∈ lampColours) :
    ∃ p s, portMask Road.PRIMARY c = some p ∧ portMask Road.SECONDARY c = some s ∧
      lowNibble s = 0xC ∧ lowNibble p = 0x3 ∧ highNibble s = highNibble p := by
  cases c
  · exact ⟨PBLUE, SBLUE, by decide⟩
  · exact ⟨PGREEN, SGREEN, by decide⟩
  · exact ⟨PYELLOW, SYELLOW, by decide⟩
  · exact ⟨PRED, SRED, by decide⟩
  · exact absurd hc (by decide)

/-- Witness of `secondary_mirrors_in_low_nibble` at the colour GREEN. -/
theorem secondary_mirrors_in_low_nibble_witness :
    Colour.GREEN ∈ lampColours ∧
    ∃ p s, portMask Road.PRIMARY Colour.GREEN = some p ∧
      portMask Road.SECONDARY Colour.GREEN = some s ∧
      lowNibble s = 0xC ∧ lowNibble p = 0x3 ∧ highNibble s = highNibble p :=
  ⟨by decide, secondary_mirrors_in_low_nibble Colour.GREEN (by decide)⟩

/-- C7: each of the five repetition counts BLINKREP, GREENREP, YELLOWREP,
REDREP, BLUEREP of config.h is positive, so none of them is non-positive. -/
theorem repetition_counts_positive :
    (0 < BLINKREP ∧ 0 < GREENREP ∧ 0 < YELLOWREP ∧ 0 < REDREP ∧ 0 < BLUEREP) ∧
    ¬ (BLINKREP ≤ 0 ∨ GREENREP ≤ 0 ∨ YELLOWREP ≤ 0 ∨ REDREP ≤ 0 ∨ BLUEREP ≤ 0) := by
  decide

/-- C8: a blinking step lasts as long as a regular step: BLINKS blinks of an
on flash and an off flash of BLINKDEL ticks each take BLINKS * 2 * BLINKDEL =
DELAY ticks, the division in BLINKDEL leaves no remainder, and BLINKDEL is
positive. -/
theorem blinking_step_is_a_step :
    BLINKS * 2 * BLINKDEL = DELAY ∧
    DELAY % (BLINKS * 2) = 0 ∧
    blinkdel 16 DELAY BLINKS = some (BLINKDEL : Int) ∧
    blinkdel 32 DELAY BLINKS = some (BLINKDEL : Int) ∧
    0 < BLINKDEL := by
  decide

/-- C9: every port mask splits into a colour nibble and a road nibble: the two
masks of a colour share the high nibble (0xE blue, 0xD green, 0xB yellow, 0x7
red, each with exactly one cleared bit), the primary low nibble is 0x3, the
secondary low nibble is 0xC, their XOR is 0x0F and their OR is the primary
mask with its low nibble filled. -/
theorem masks_split_into_nibbles :
    nibbleSplit 0xE PBLUE SBLUE ∧ nibbleSplit 0xD PGREEN SGREEN ∧
    nibbleSplit 0xB PYELLOW SYELLOW ∧ nibbleSplit 0x7 PRED SRED ∧
    lampColours.map (portMask Road.PRIMARY) =
      [some PBLUE, some PGREEN, some PYELLOW, some PRED] ∧
    lampColours.map (portMask Road.SECONDARY) =
      [some SBLUE, some SGREEN, some SYELLOW, some SRED] := by
  decide

/-- C10 (as stated, refuted): with a 32-bit `int`, DELAY = 180 and BLINKS =
2147483647 (both representable, BLINKS >= 1) the divisor BLINKS * 2 wraps to
-2 and BLINKDEL is -90: DELAY < BLINKS * 2 * (BLINKDEL + 1) fails, and BLINKDEL
is not 0 although DELAY < BLINKS * 2.  The same happens with a 16-bit `int`
at BLINKS = 32767. -/
theorem blinkdel_wraps_at_int_max :
    ((1 : Int) ≤ 2147483647 ∧ (2147483647 : Int) < intLimit 32 ∧
      (0 : Int) ≤ 180 ∧ (180 : Int) < intLimit 32) ∧
    wrapInt 32 (2147483647 * 2) = -2 ∧
    blinkdel 32 180 2147483647 = some (-90) ∧
    ¬ ((180 : Int) < 2147483647 * 2 * (-90 + 1)) ∧
    ¬ ((-90 : Int) = 0 ↔ (180 : Int) < 2147483647 * 2) ∧
    ((32767 : Int) < intLimit 16 ∧ wrapInt 16 (32767 * 2) = -2 ∧
      blinkdel 16 180 32767 = some (-90)) := by
  decide

/-- C10 (amended): in `int` arithmetic of any width, for every representable
DELAY >= 0 and BLINKS >= 1 the divisor BLINKS * 2 of BLINKDEL is non-zero; when
moreover BLINKS * 2 is representable (the product does not overflow), BLINKDEL
has a value d >= 0 with BLINKS * 2 * d <= DELAY < BLINKS * 2 * (d + 1), the two
lengths are equal exactly when BLINKS * 2 divides DELAY, and d = 0 exactly
when DELAY < BLINKS * 2. -/
theorem blinkdel_bounds (w : Nat) (delay blinks : Int)
    (hd0 : 0 ≤ delay) (hd : delay < intLimit w)
    (hb1 : 1 ≤ blinks) (hb : blinks < intLimit w) :
    wrapInt w (blinks * 2) ≠ 0 ∧
    (blinks * 2 < intLimit w →
      ∃ d, blinkdel w delay blinks = some d ∧ 0 ≤ d ∧
        blinks * 2 * d ≤ delay ∧ delay < blinks * 2 * (d + 1) ∧
        (blinks * 2 * d = delay ↔ blinks * 2 ∣ delay) ∧
        (d = 0 ↔ delay < blinks * 2)) := by
  have hdiv := wrapInt_double_ne_zero w blinks hb1 hb
  refine ⟨hdiv, fun hb2 => ?_⟩
  have hk0 : 0 ≤ blinks * 2 := by omega
  have hkpos : 0 < blinks * 2 := by omega
  have hwk : wrapInt w (blinks * 2) = blinks * 2 := wrapInt_of_small w _ hk0 hb2
  have hq0 : 0 ≤ delay / (blinks * 2) := Int.ediv_nonneg hd0 hk0
  have hqle : delay / (blinks * 2) ≤ delay := Int.ediv_le_self _ hd0
  have hwq : wrapInt w (delay / (blinks * 2)) = delay / (blinks * 2) :=
    wrapInt_of_small w _ hq0 (lt_of_le_of_lt hqle hd)
  have hval : blinkdel w delay blinks = some (delay / (blinks * 2)) := by
    unfold blinkdel
    simp only [hwk, Int.tdiv_eq_ediv hd0 hk0, hwq]
    rw [if_neg (ne_of_gt hkpos)]
  have hsplit := Int.emod_add_ediv delay (blinks * 2)
  have hr0 : 0 ≤ delay % (blinks * 2) := Int.emod_nonneg _ (ne_of_gt hkpos)
  have hrlt : delay % (blinks * 2) < blinks * 2 := Int.emod_lt_of_pos _ hkpos
  refine ⟨delay / (blinks * 2), hval, hq0, by linarith, ?_, ?_, ?_⟩
  · have : blinks * 2 * (delay / (blinks * 2) + 1)
        = blinks * 2 * (delay / (blinks * 2)) + blinks * 2 := by ring
    rw [this]; linarith
  · rw [Int.dvd_iff_emod_eq_zero]
    constructor
    · intro heq; linarith
    · intro hz; linarith
  · constructor
    · intro hq
      rw [hq] at hsplit
      linarith
    · intro hlt
      exact Int.ediv_eq_zero_of_lt hd0 hlt

/-- Witness of `blinkdel_bounds` with a 16-bit `int` at DELAY = 181, BLINKS =
2, where the flashes fall one tick short of a regular step. -/
theorem blinkdel_bounds_witness :
    ((0 : Int) ≤ 181 ∧ (181 : Int) < intLimit 16 ∧
      (1 : Int) ≤ 2 ∧ (2 : Int) < intLimit 16 ∧ (2 : Int) * 2 < intLimit 16) ∧
    wrapInt 16 (2 * 2) ≠ 0 ∧
    ∃ d, blinkdel 16 181 2 = some d ∧ 0 ≤ d ∧
      2 * 2 * d ≤ 181 ∧ 181 < 2 * 2 * (d + 1) ∧
      (2 * 2 * d = 181 ↔ 2 * 2 ∣ (181 : Int)) ∧
      (d = 0 ↔ (181 : Int) < 2 * 2) :=
  have h := blinkdel_bounds 16 181 2 (by decide) (by decide) (by decide) (by decide)
  ⟨by decide, h.1, h.2 (by decide)⟩

end TrafficLight
